import Mathlib

/-!
# Verification of the Conversational Intent Router and Price-Data Resolution Engine

Shallow embedding of the `defi-consultant` repository's core logic, faithful to
the Rust sources:

* `src/price_fetcher.rs` — rate limiter (`respect_rate_limit`, `LAST_REQUEST`)
  and the price fetchers (`fetch_coin_price`, `fetch_coin_historical_price`);
* `src/investment_chat/mod.rs` — message processing (`process_message`),
  intent classification and price-query handling (`handle_price_query`),
  strategy creation (`handle_strategy_creation`), field extraction
  (`extract_field`, `extract_array_field`, `extract_json_field`), and the
  date normalizer actually wired into the agent
  (`InvestmentChatAgent::format_date_for_api`).

Modelling conventions:

* Rust `String`/`&str` values are Lean `String`s; where structural reasoning
  about characters is required (the date normalizer) the embedding works on
  `List Char` with `String` wrappers at the boundary.
* `str::to_lowercase` / `char` case folding is modelled on ASCII
  (`Char.toLower`), which covers every string the program manipulates.
* Machine time (`std::time::Instant`, milliseconds) is modelled as `Nat`.
* `f64` prices are carried opaquely as `Rat`; no claim below depends on
  floating-point arithmetic.
* Fallible operations return `Except`/`Option`; external collaborators
  (HTTP responses, the search client, the database) enter as explicit
  oracle parameters describing their observable outcome.
* The Rust `regex` crate's leftmost-first (Perl-style) match semantics is
  implemented by a fuel-bounded backtracking matcher with capture groups;
  the regular expressions of `handle_price_query` and `extract_field` are
  transliterated pattern by pattern.
-/

namespace DefiConsultant

/-! ## Basic string model -/

/-- ASCII model of Rust `str::to_lowercase`. -/
def lowerStr (s : String) : String := String.mk (s.data.map Char.toLower)

/-- Does `pat` occur at the very front of `hay`? -/
def leadsWith : List Char → List Char → Bool
  | _, [] => true
  | [], _ :: _ => false
  | c :: cs, p :: ps => c = p && leadsWith cs ps

/-- Does `pat` occur contiguously anywhere in `hay`? -/
def containsSub (hay pat : List Char) : Bool :=
  match hay with
  | [] => leadsWith [] pat
  | _ :: rest => leadsWith hay pat || containsSub rest pat

/-- Rust `str::contains(pat)`: `pat` occurs as a contiguous substring. -/
def containsStr (hay pat : String) : Bool := containsSub hay.data pat.data

/-- ASCII whitespace, the model of the regex class `\s` and of `str::trim`. -/
def isWhite (c : Char) : Bool :=
  c = ' ' || c = '\t' || c = '\n' || c = '\r' || c = '\x0b' || c = '\x0c'

/-- Rust `str::trim` on the character-list representation. -/
def trimChars (s : List Char) : List Char :=
  ((s.dropWhile isWhite).reverse.dropWhile isWhite).reverse

/-- Equality on `Except` results is decidable componentwise. -/
instance {ε α : Type} [DecidableEq ε] [DecidableEq α] : DecidableEq (Except ε α) :=
  fun x y =>
    match x, y with
    | .error a, .error b =>
      if h : a = b then isTrue (by rw [h])
      else isFalse (by intro hc; cases hc; exact h rfl)
    | .error _, .ok _ => isFalse (by intro hc; cases hc)
    | .ok _, .error _ => isFalse (by intro hc; cases hc)
    | .ok a, .ok b =>
      if h : a = b then isTrue (by rw [h])
      else isFalse (by intro hc; cases hc; exact h rfl)

/-! ## Error type (`src/investment_chat/error.rs`, `InvestmentChatError`) -/

inductive ICError where
  | database (msg : String)
  | exaApi (msg : String)
  | priceFetcher (msg : String)
  | anthropicApi (msg : String)
  | configuration (msg : String)
  | invalidInput (msg : String)
  | internal (msg : String)
  | externalApi (msg : String)
  | priceApi (msg : String)
deriving DecidableEq, Repr

/-! ## Date normalizer (`InvestmentChatAgent::format_date_for_api`, mod.rs 917–957)

This is the normalizer actually used by the historical-price path
(mod.rs line 519).  The repository also contains
`src/investment_chat/date_utils.rs` with a chrono-validating variant of the
same function, but that file is referenced by no `mod` declaration and is
dead code; the live path is the method below. -/

/-- The separator predicate of
`date_str.split(|c| c == '-' || c == '/' || c == '.')`. -/
def isSep (c : Char) : Bool := c = '-' || c = '/' || c = '.'

/-- Rust `str::split` on `isSep`, keeping empty segments
(`"".split` yields one empty segment, as in Rust). -/
def splitSep : List Char → List (List Char)
  | [] => [[]]
  | c :: rest =>
    if isSep c then [] :: splitSep rest
    else
      match splitSep rest with
      | [] => [[c]]
      | p :: ps => (c :: p) :: ps

/-- Zero-padding of a one-character day/month field (mod.rs 953–954). -/
def pad2 (x : List Char) : List Char := if x.length = 1 then '0' :: x else x

/-- `format!("{}-{}-{}", day_padded, month_padded, year)` (mod.rs 956). -/
def mkDate (d m y : List Char) : List Char :=
  pad2 d ++ '-' :: (pad2 m ++ '-' :: y)

/-- The error message built at mod.rs 922–924 and 947–949. -/
def dateFormatError (s : List Char) : ICError :=
  .invalidInput ("Invalid date format: " ++ String.mk s ++
    ". Please use DD-MM-YYYY format.")

/-- `InvestmentChatAgent::format_date_for_api` (mod.rs 917–957) on
character lists: split on `-`/`/`/`.`; require exactly three fields;
a 4-character first field is year-first (ISO), otherwise a 4-character last
field is `dd-mm-yyyy`, otherwise a 2-character last field gets `"20"`
prepended; day and month are zero-padded.  No calendar validation is
performed. -/
def formatDateForApiL (s : List Char) : Except ICError (List Char) :=
  match splitSep s with
  | [a, b, c] =>
    if a.length = 4 then .ok (mkDate c b a)
    else if c.length = 4 then .ok (mkDate a b c)
    else if c.length = 2 then .ok (mkDate a b ('2' :: '0' :: c))
    else .error (dateFormatError s)
  | _ => .error (dateFormatError s)

/-- String-level wrapper of the live date normalizer. -/
def formatDateForApi (s : String) : Except ICError String :=
  (formatDateForApiL s.data).map String.mk

/-! ## Rate limiter (`src/price_fetcher.rs` 44–62, 96–98, 150–152, 222–224)

Discrete-time model of the shared limiter protocol followed by every
outbound price call (`fetch_coin_price`, `fetch_multiple_coin_prices`,
`fetch_coin_historical_price`):

1. `respect_rate_limit`: read the shared `LAST_REQUEST` timestamp; if less
   than `MIN_REQUEST_INTERVAL_MS = 1500` ms have elapsed since it, sleep the
   remainder; then initiate the HTTP request (the call start).
2. The timestamp is written back — set to the current instant — only after a
   response has been successfully received and parsed; every earlier exit
   (transport failure, rate-limit status, error status, undeserializable
   payload) leaves it untouched.

Calls are modelled sequentially: each call is invoked `gap` ms after the
previous one completed, runs for `duration` ms from request start to
response/failure, and `parsedOk` records whether the response was
successfully received and parsed (the condition under which the code reaches
the `LAST_REQUEST` update). -/

def minRequestIntervalMs : Nat := 1500

structure CallSpec where
  /-- Delay between the previous call's completion and this call's invocation. -/
  gap : Nat
  /-- Time from request start to response or failure. -/
  duration : Nat
  /-- Whether a response was successfully received and parsed
  (the code path reaching the `LAST_REQUEST` update). -/
  parsedOk : Bool
deriving DecidableEq, Repr

structure RLState where
  /-- Current instant (completion time of the previous call, or 0). -/
  now : Nat
  /-- The shared `LAST_REQUEST` cell. -/
  last : Option Nat
deriving DecidableEq, Repr

/-- One outbound call under the limiter protocol: returns the call-start
instant and the successor state. -/
def stepCall (st : RLState) (c : CallSpec) : Nat × RLState :=
  let arrival := st.now + c.gap
  let start :=
    match st.last with
    | none => arrival
    | some t => max arrival (t + minRequestIntervalMs)
  let finish := start + c.duration
  (start, ⟨finish, if c.parsedOk then some finish else st.last⟩)

/-- Call-start instants of a sequence of calls, from a given limiter state. -/
def runCalls (st : RLState) : List CallSpec → List Nat
  | [] => []
  | c :: cs =>
    let r := stepCall st c
    r.1 :: runCalls r.2 cs

/-- Initial process state: `LAST_REQUEST` is `None`. -/
def initRL : RLState := ⟨0, none⟩

/-! ## Price fetchers (`src/price_fetcher.rs` 65–110 and 178–231)

The HTTP interaction is an oracle parameter: either a transport failure or a
response carrying a status code and — when deserialization succeeds — the
parsed body.  `completion` is the instant at which the body has been parsed
(where the code executes `*last_request = Some(Instant::now())`). -/

inductive PriceErrorM where
  | networkError
  | rateLimitExceeded
  | invalidResponse (msg : String)
  | priceNotFound (what : String)
deriving DecidableEq, Repr

/-- Outcome of an outbound HTTP exchange whose successfully parsed body has
type `β`; `body = none` models a deserialization failure. -/
inductive NetOutcome (β : Type) where
  | transportError
  | response (status : Nat) (body : Option β)
deriving DecidableEq, Repr

/-- `reqwest::StatusCode::is_success`. -/
def isSuccessStatus (s : Nat) : Bool := 200 ≤ s && s < 300

/-- Body of `GET /simple/price`: the coin map of `PriceResponse`
(`HashMap<String, HashMap<String, f64>>` as an association list). -/
abbrev SimpleBody : Type := List (String × List (String × Rat))

/-- `HashMap::get` on the association-list model. -/
def lookupA {α : Type} (l : List (String × α)) (k : String) : Option α :=
  match l with
  | [] => none
  | (k', v) :: rest => if k' = k then some v else lookupA rest k

/-- `fetch_coin_price` (price_fetcher.rs 65–110), with the rate-limit wait
elided (it is the `stepCall` model above) and the HTTP exchange as an
oracle.  Returns the call result together with the new `LAST_REQUEST`
value.  Note the update order of the source: the timestamp is written as
soon as the body parses, *before* the coin/currency lookup. -/
def fetchCoinPriceModel (coinId : String) (net : NetOutcome SimpleBody)
    (last : Option Nat) (completion : Nat) :
    Except PriceErrorM Rat × Option Nat :=
  match net with
  | .transportError => (.error .networkError, last)
  | .response status body =>
    if status = 429 then (.error .rateLimitExceeded, last)
    else if !isSuccessStatus status then
      (.error (.invalidResponse ("Status code: " ++ toString status)), last)
    else
      match body with
      | none => (.error .networkError, last)
      | some coins =>
        let newLast := some completion
        match lookupA coins coinId with
        | some prices =>
          match lookupA prices "usd" with
          | some p => (.ok p, newLast)
          | none => (.error (.priceNotFound ("USD price for " ++ coinId)), newLast)
        | none => (.error (.priceNotFound coinId), newLast)

/-- Body of `GET /coins/{id}/history`: the `market_data.current_price` map. -/
abbrev HistoricalBody : Type := List (String × Rat)

/-- `fetch_coin_historical_price` (price_fetcher.rs 178–231), modelled like
`fetchCoinPriceModel`; the timestamp update again precedes the currency
lookup. -/
def fetchCoinHistoricalPriceModel (coinId : String)
    (net : NetOutcome HistoricalBody) (last : Option Nat) (completion : Nat) :
    Except PriceErrorM Rat × Option Nat :=
  match net with
  | .transportError => (.error .networkError, last)
  | .response status body =>
    if status = 429 then (.error .rateLimitExceeded, last)
    else if !isSuccessStatus status then
      (.error (.invalidResponse ("Status code: " ++ toString status)), last)
    else
      match body with
      | none => (.error .networkError, last)
      | some currentPrice =>
        let newLast := some completion
        match lookupA currentPrice "usd" with
        | some p => (.ok p, newLast)
        | none =>
          (.error (.priceNotFound ("Historical USD price for " ++ coinId)), newLast)

/-- Whether the exchange delivered a successfully received and parsed
response — exactly the condition under which the source reaches the
`LAST_REQUEST` update. -/
def parsedOutcome {β : Type} (net : NetOutcome β) : Bool :=
  match net with
  | .transportError => false
  | .response status body =>
    if status = 429 then false
    else if !isSuccessStatus status then false
    else body.isSome

/-! ## Strategy-creation detection (`handle_strategy_creation`, mod.rs 340–354) -/

/-- The `is_strategy_request` condition of mod.rs 345–351: pairs of
`contains` checks on the lowercased message, plus the phrase
`"please save this"`. -/
def isStrategyRequest (m : String) : Bool :=
  let ml := lowerStr m
  (containsStr ml "save" && containsStr ml "strategy") ||
  (containsStr ml "add" && containsStr ml "strategy") ||
  (containsStr ml "create" && containsStr ml "strategy") ||
  (containsStr ml "store" && containsStr ml "strategy") ||
  (containsStr ml "save" && containsStr ml "database") ||
  containsStr ml "please save this"

/-- The claim's trigger condition, written from the spec's words: an action
verb from {save, add, create, store} together with the word "strategy", or
the exact phrase "please save this". -/
def claimStrategyCondition (m : String) : Prop :=
  ((containsStr (lowerStr m) "save" = true ∨
    containsStr (lowerStr m) "add" = true ∨
    containsStr (lowerStr m) "create" = true ∨
    containsStr (lowerStr m) "store" = true) ∧
   containsStr (lowerStr m) "strategy" = true) ∨
  containsStr (lowerStr m) "please save this" = true

instance (m : String) : Decidable (claimStrategyCondition m) := by
  unfold claimStrategyCondition; infer_instance

/-! ## Entry-points detection (`handle_price_query`, mod.rs 707–716) -/

/-- The `is_entry_points_query` check on the lowercased message. -/
def isEntryPointsQuery (m : String) : Bool :=
  let ml := lowerStr m
  containsStr ml "entry points" ||
  containsStr ml "entering points" ||
  containsStr ml "entry point" ||
  containsStr ml "entering point" ||
  (containsStr ml "entry" && containsStr ml "price") ||
  (containsStr ml "enter" && containsStr ml "price") ||
  (containsStr ml "buy" && containsStr ml "level") ||
  (containsStr ml "when" && containsStr ml "buy") ||
  (containsStr ml "good" && containsStr ml "entry")

/-! ## Keyword extraction (`extract_keywords`, mod.rs 223–235;
`constants::investment_keywords`, constants.rs 52–94) -/

/-- The constant keyword set of `constants::investment_keywords()`. -/
def investmentKeywords : List String :=
  ["invest", "risk", "return", "strategy", "portfolio", "diversify",
   "allocation", "market", "bull", "bear", "trend", "analysis", "technical",
   "fundamental", "defi", "yield", "farming", "staking", "liquidity", "pool",
   "swap", "trade", "long", "short", "leverage", "margin", "volatility",
   "market cap", "volume", "tokenomics", "supply", "inflation", "team",
   "roadmap", "whitepaper"]

/-- `InvestmentChatAgent::extract_keywords`: the keywords contained in the
lowercased message. -/
def extractKeywords (m : String) : List String :=
  investmentKeywords.filter (fun k => containsStr (lowerStr m) k)

/-! ## Chat orchestration (`process_message`, mod.rs 62–206)

The persistence collaborator and the downstream handlers enter as an
oracle: each field gives the observable outcome of one external call.  The
function returns the turn's result together with the list of successfully
persisted messages, in persistence order (`db::save_message` persists
nothing when it fails). -/

structure PMOracle where
  /-- Does the opening `db::save_message(…, "user", …)` succeed? -/
  saveUserOk : Bool
  /-- Outcome of `handle_price_query` (`Ok(Some _)` = handled,
  `Ok(None)` = not a price query, `Err` = aborted). -/
  priceResult : Except ICError (Option String)
  /-- Does the assistant save after a handled price query succeed? -/
  savePriceOk : Bool
  /-- Outcome of `handle_strategy_creation`. -/
  strategyResult : Except ICError (Option String)
  /-- Does the assistant save after a handled strategy request succeed? -/
  saveStrategyOk : Bool
  /-- Outcome of `get_knowledge_by_keywords` (consulted only when
  `extract_keywords` is non-empty; mod.rs 127–133). -/
  knowledgeResult : Except ICError String
  /-- Does `Config::get_instance()` succeed? -/
  configOk : Bool
  /-- Outcome of `get_ai_response`. -/
  aiResult : Except ICError String
  /-- Does the assistant save after an AI response succeed? -/
  saveAiOk : Bool

/-- `InvestmentChatAgent::process_message` (mod.rs 62–206): persistence
events are `(role, content)` pairs in the order they are durably stored.
History retrieval failures are swallowed (mod.rs 89–95) and the prompt
construction stores nothing, so neither appears in the event list. -/
def processMessage (o : PMOracle) (m : String) :
    Except ICError String × List (String × String) :=
  if !o.saveUserOk then (.error (.database "save_message user"), [])
  else
    let ev := [("user", m)]
    match o.priceResult with
    | .error e => (.error e, ev)
    | .ok (some info) =>
      if o.savePriceOk then (.ok info, ev ++ [("assistant", info)])
      else (.error (.database "save_message assistant"), ev)
    | .ok none =>
      match o.strategyResult with
      | .error e => (.error e, ev)
      | .ok (some resp) =>
        if o.saveStrategyOk then (.ok resp, ev ++ [("assistant", resp)])
        else (.error (.database "save_message assistant"), ev)
      | .ok none =>
        let knowledgeStep : Except ICError Unit :=
          if (extractKeywords m).isEmpty then .ok ()
          else o.knowledgeResult.map (fun _ => ())
        match knowledgeStep with
        | .error e => (.error e, ev)
        | .ok _ =>
          if !o.configOk then (.error (.configuration "config"), ev)
          else
            match o.aiResult with
            | .error e => (.error e, ev)
            | .ok resp =>
              if o.saveAiOk then (.ok resp, ev ++ [("assistant", resp)])
              else (.error (.database "save_message assistant"), ev)

/-! ## Price-query failure handling (`handle_price_query`)

The two failure arms the spec's fallback story is about:

* the dated historical arm, mod.rs 571–586;
* the current-price arm, mod.rs 823–854.

`exa` is the outcome of one `exa_client.search` call: `some summary` when
the search succeeds (the code then returns the summarized research),
`none` when it fails. -/

inductive QueryOutcome where
  /-- `return Ok(Some text)`: a user-facing response. -/
  | answer (text : String)
  /-- `return Err(…)`: the turn aborts with an error. -/
  | abort (e : ICError)
deriving DecidableEq, Repr

structure FallbackResult where
  /-- The search-source (Exa) queries issued, in order. -/
  exaQueries : List String
  outcome : QueryOutcome
deriving DecidableEq, Repr

/-- The `Err` arm of the current-price fetch (mod.rs 823–854): rate-limit,
not-found and invalid-response errors answer directly without any search
call; only the remaining case (`NetworkError`) consults Exa once, and a
failed search yields the apology naming the coin. -/
def handleCurrentPriceError (crypto : String) (e : PriceErrorM)
    (exa : Option String) : FallbackResult :=
  match e with
  | .rateLimitExceeded =>
    ⟨[], .answer "The CoinGecko API rate limit has been reached. Please try again in a minute."⟩
  | .priceNotFound _ =>
    ⟨[], .answer ("Could not find price information for " ++ crypto ++
      ". Please check that the cryptocurrency name or ticker is correct.")⟩
  | .invalidResponse msg =>
    ⟨[], .answer ("Error from CoinGecko API: " ++ msg)⟩
  | .networkError =>
    let query := "current price of " ++ crypto ++ " cryptocurrency"
    match exa with
    | some summary =>
      ⟨[query], .answer ("Based on my research: " ++ summary ++
        "\n\nNote: This information might not be real-time. For specific trading levels and recommendations, I recommend checking specialized crypto data providers.")⟩
    | none =>
      ⟨[query], .answer ("I couldn't find real-time price information for " ++ crypto ++
        ". Please check that the cryptocurrency name or ticker is correct and try again.")⟩

/-- The `Err` arm of the dated historical fetch (mod.rs 571–586): Exa is
consulted once for every error kind, and a failed search *aborts* with
`InvestmentChatError::PriceApi` instead of answering. -/
def handleHistoricalPriceError (crypto dateStr : String) (e : String)
    (exa : Option String) : FallbackResult :=
  let query := "historical price of " ++ crypto ++ " cryptocurrency on " ++ dateStr
  match exa with
  | some summary =>
    ⟨[query], .answer ("Based on my research: " ++ summary ++
      "\n\nNote: This information might not be from real-time price data. For more accurate historical data, I recommend checking specialized crypto data providers.")⟩
  | none =>
    ⟨[query], .abort (.priceApi ("Error fetching historical price for " ++ crypto ++
      ": " ++ e ++
      ". Make sure the date format is correct (DD-MM-YYYY) and that the cryptocurrency is supported."))⟩

/-! ## Regex engine

A fuel-bounded backtracking matcher with capture groups implementing the
`regex` crate's leftmost-first (Perl-style) semantics for the fragment the
source uses: literals, classes, alternation (first alternative wins),
greedy `?`/`*`/`+`, capture groups and the `$` anchor.  Every pattern in
the source carries the `(?i)` flag or only case-less literals, so literal
matching is uniformly case-insensitive (ASCII folding). -/

inductive RE where
  | eps
  | lit (c : Char)
  | cls (p : Char → Bool)
  | seq (a b : RE)
  | alt (a b : RE)
  | opt (a : RE)
  | star (a : RE)
  | plus (a : RE)
  | group (n : Nat) (a : RE)
  | eos

/-- Capture environment: group index ↦ captured characters. -/
abbrev Caps := List (Nat × List Char)

def setCap (n : Nat) (v : List Char) : Caps → Caps
  | [] => [(n, v)]
  | (m, w) :: rest => if m = n then (n, v) :: rest else (m, w) :: setCap n v rest

def capGet (caps : Caps) (n : Nat) : Option (List Char) :=
  match caps with
  | [] => none
  | (m, w) :: rest => if m = n then some w else capGet rest n

/-- CPS backtracking matcher.  `mrun fuel r s caps k` matches `r` against a
front segment of `s`, calling `k` with the rest and the updated captures;
alternatives are tried left first and quantifiers greedily, so the first
success is the leftmost-first match.  `fuel` bounds the recursion depth
(the concrete patterns below never exhaust it on the inputs used). -/
def mrun : Nat → RE → List Char → Caps →
    (List Char → Caps → Option (Caps × List Char)) → Option (Caps × List Char)
  | 0, _, _, _, _ => none
  | fuel + 1, r, s, caps, k =>
    match r with
    | .eps => k s caps
    | .lit c =>
      match s with
      | [] => none
      | c' :: rest => if c.toLower = c'.toLower then k rest caps else none
    | .cls p =>
      match s with
      | [] => none
      | c' :: rest => if p c' then k rest caps else none
    | .seq a b => mrun fuel a s caps (fun s' caps' => mrun fuel b s' caps' k)
    | .alt a b =>
      match mrun fuel a s caps k with
      | some res => some res
      | none => mrun fuel b s caps k
    | .opt a =>
      match mrun fuel a s caps k with
      | some res => some res
      | none => k s caps
    | .star a =>
      match mrun fuel a s caps (fun s' caps' => mrun fuel (.star a) s' caps' k) with
      | some res => some res
      | none => k s caps
    | .plus a => mrun fuel a s caps (fun s' caps' => mrun fuel (.star a) s' caps' k)
    | .group n a =>
      mrun fuel a s caps
        (fun s' caps' => k s' (setCap n (s.take (s.length - s'.length)) caps'))
    | .eos =>
      match s with
      | [] => k s caps
      | _ :: _ => none

/-- Default fuel: ample for every pattern/input pair below (fuel bounds the
recursion depth, roughly pattern size plus consumed characters). -/
def engineFuel : Nat := 3000

/-- Match `r` against a front segment of `s`; on success return the captures
and the suffix following the match. -/
def matchAt (r : RE) (s : List Char) : Option (Caps × List Char) :=
  mrun engineFuel r s [] (fun rest caps => some (caps, rest))

/-- Leftmost match: try every start position from the left
(`Regex::captures`). -/
def searchFrom (r : RE) : List Char → Option (Caps × List Char)
  | [] => matchAt r []
  | c :: rest =>
    match matchAt r (c :: rest) with
    | some res => some res
    | none => searchFrom r rest

/-- `Regex::captures` on a `String`: captures of the leftmost-first match. -/
def reCaptures (r : RE) (s : String) : Option Caps :=
  (searchFrom r s.data).map (·.1)

/-- `Regex::captures` for a pattern of the form `^…$`: the match may only
start at position 0 (the `$` is an `RE.eos` inside the pattern). -/
def reCapturesAnchored (r : RE) (s : String) : Option Caps :=
  (matchAt r s.data).map (·.1)

/-- All matches in order (`Regex::captures_iter`): scan for the leftmost
match, continue after its end.  The patterns used with it cannot match the
empty string, so each round consumes at least one character; the fuel
bounds the number of rounds. -/
def searchAll (fuel : Nat) (r : RE) (s : List Char) : List Caps :=
  match fuel with
  | 0 => []
  | fuel + 1 =>
    match searchFrom r s with
    | none => []
    | some (caps, rest) => caps :: searchAll fuel r rest

def reCapturesIter (r : RE) (s : String) : List Caps :=
  searchAll (s.data.length + 1) r s.data

/-! Character classes of the source patterns (under the `(?i)` flag where it
applies). -/

/-- `[a-z]` under `(?i)`. -/
def alphaCI (c : Char) : Bool := 'a' ≤ c.toLower && c.toLower ≤ 'z'

/-- `[0-9]` / `\d`. -/
def isDigitC (c : Char) : Bool := '0' ≤ c && c ≤ '9'

/-- `[^\n]`. -/
def notNl (c : Char) : Bool := c != '\n'

/-- The class of a dash or a forward slash (the date separators in
`historical_regex`). -/
def dashSlash (c : Char) : Bool := c = '-' || c = '/'

/-- `[^"]`. -/
def notQuote (c : Char) : Bool := c != '"'

/-- `[^,"]`. -/
def notCommaQuote (c : Char) : Bool := c != ',' && c != '"'

/-- A sequence of (case-insensitive) literal characters. -/
def rs (s : String) : RE := s.data.foldr (fun c r => RE.seq (RE.lit c) r) RE.eps

/-- Sequencing of a pattern list. -/
def rseq (l : List RE) : RE := l.foldr RE.seq RE.eps

/-- Ordered alternation (first alternative preferred). -/
def ralt : List RE → RE
  | [] => RE.eps
  | [r] => r
  | r :: rest => RE.alt r (ralt rest)

/-! ## The patterns of `handle_price_query` (mod.rs 493–510) -/

/-- `(?i)(?:what(?:'s| is)(?: the)? (?:current |latest |recent )?(?:price|value)
(?:of |for )?|how much is|price of|what(?:'s| is)|ethereum price|eth price|
btc price|bitcoin price) ?([a-z]+)?(?: now| today| currently|\?|$)`
(mod.rs 495). -/
def priceRegex : RE := rseq
  [ ralt
      [ rseq [rs "what", ralt [rs "'s", rs " is"], RE.opt (rs " the"), rs " ",
              RE.opt (ralt [rs "current ", rs "latest ", rs "recent "]),
              ralt [rs "price", rs "value"], rs " ",
              RE.opt (ralt [rs "of ", rs "for "])]
      , rs "how much is"
      , rs "price of"
      , rseq [rs "what", ralt [rs "'s", rs " is"]]
      , rs "ethereum price"
      , rs "eth price"
      , rs "btc price"
      , rs "bitcoin price" ]
  , RE.opt (RE.lit ' ')
  , RE.opt (RE.group 1 (RE.plus (RE.cls alphaCI)))
  , ralt [rs " now", rs " today", rs " currently", RE.lit '?', RE.eos] ]

/-- `(?i)^([a-z]+)(?:\s+(?:price|current price))?$` (mod.rs 498); fully
anchored, used with `reCapturesAnchored`. -/
def directRegex : RE := rseq
  [ RE.group 1 (RE.plus (RE.cls alphaCI))
  , RE.opt (rseq [RE.plus (RE.cls isWhite), ralt [rs "price", rs "current price"]])
  , RE.eos ]

/-- `(?i)(?:what is|what's)(?: the)? (bitcoin|btc|ethereum|eth|solana|sol|
cardano|ada)(?: price| current price)?\??` (mod.rs 501). -/
def commonCryptoRegex : RE := rseq
  [ ralt [rs "what is", rs "what's"]
  , RE.opt (rs " the"), rs " "
  , RE.group 1 (ralt [rs "bitcoin", rs "btc", rs "ethereum", rs "eth",
                      rs "solana", rs "sol", rs "cardano", rs "ada"])
  , RE.opt (ralt [rs " price", rs " current price"])
  , RE.opt (RE.lit '?') ]

/-- `(?i)(?:what (?:is|are)|price)(?: the)? (?:entry|entering) points(?: for)?
([a-z]+)(?:\s|from|$)|(?:entry|entering) points(?: for)? ([a-z]+)(?:\s|from|$)
|(?:price|prices)(?: for| of)? ([a-z]+)(?: entry| entering| entry points|
 entering points)(?:\s|from|$)` (mod.rs 504). -/
def entryPointsRegex : RE := ralt
  [ rseq [ ralt [rseq [rs "what ", ralt [rs "is", rs "are"]], rs "price"]
         , RE.opt (rs " the"), rs " "
         , ralt [rs "entry", rs "entering"], rs " points"
         , RE.opt (rs " for"), rs " "
         , RE.group 1 (RE.plus (RE.cls alphaCI))
         , ralt [RE.cls isWhite, rs "from", RE.eos] ]
  , rseq [ ralt [rs "entry", rs "entering"], rs " points"
         , RE.opt (rs " for"), rs " "
         , RE.group 2 (RE.plus (RE.cls alphaCI))
         , ralt [RE.cls isWhite, rs "from", RE.eos] ]
  , rseq [ ralt [rs "price", rs "prices"]
         , RE.opt (ralt [rs " for", rs " of"]), rs " "
         , RE.group 3 (RE.plus (RE.cls alphaCI))
         , ralt [rs " entry", rs " entering", rs " entry points", rs " entering points"]
         , ralt [RE.cls isWhite, rs "from", RE.eos] ] ]

/-- `[0-9]{1,2}`. -/
def oneOrTwoDigits : RE := rseq [RE.cls isDigitC, RE.opt (RE.cls isDigitC)]

/-- `[0-9]{2,4}`. -/
def twoToFourDigits : RE :=
  rseq [RE.cls isDigitC, RE.cls isDigitC, RE.opt (RE.cls isDigitC),
        RE.opt (RE.cls isDigitC)]

/-- `(?i)(?:what was|historical|history|past|previous|what is the historical)
(?:the )?(?:price|value) (?:of |for )?([a-z]+) (?:on|at|in)
([0-9]{1,2}S[0-9]{1,2}S[0-9]{2,4})` where `S` stands for the dash-or-slash
class (mod.rs 507; the class is spelled with a bracket pair in the source,
which a Lean comment cannot quote verbatim). -/
def historicalRegex : RE := rseq
  [ ralt [rs "what was", rs "historical", rs "history", rs "past",
          rs "previous", rs "what is the historical"]
  , rs " ", RE.opt (rs "the ")
  , ralt [rs "price", rs "value"], rs " "
  , RE.opt (ralt [rs "of ", rs "for "])
  , RE.group 1 (RE.plus (RE.cls alphaCI)), rs " "
  , ralt [rs "on", rs "at", rs "in"], rs " "
  , RE.group 2 (rseq [oneOrTwoDigits, RE.cls dashSlash, oneOrTwoDigits,
                      RE.cls dashSlash, twoToFourDigits]) ]

/-- `(?i)(?:what is|what's)(?: the)? historical (?:price|value)(?: of| for)?
([a-z]+)` (mod.rs 510). -/
def historicalGeneralRegex : RE := rseq
  [ ralt [rs "what is", rs "what's"]
  , RE.opt (rs " the"), rs " historical "
  , ralt [rs "price", rs "value"]
  , RE.opt (ralt [rs " of", rs " for"]), rs " "
  , RE.group 1 (RE.plus (RE.cls alphaCI)) ]

/-! ## Field extraction (mod.rs 417–490) -/

/-- `(?i){field}\s*([^\n]+)(?:\n|$)` with the field label escaped
(`extract_field`, mod.rs 419). -/
def fieldRegex (field : String) : RE := rseq
  [ rs field
  , RE.star (RE.cls isWhite)
  , RE.group 1 (RE.plus (RE.cls notNl))
  , RE.alt (RE.lit '\n') RE.eos ]

/-- `InvestmentChatAgent::extract_field` (mod.rs 418–428): first match's
group 1, trimmed. -/
def extractField (message field : String) : Option String :=
  match reCaptures (fieldRegex field) message with
  | some caps =>
    match capGet caps 1 with
    | some v => some (String.mk (trimChars v))
    | none => none
  | none => none

/-- `(?i){field}\s*[^\n]*\n((?:\s*\d+\.\s*[^\n]+\n?)+)` (mod.rs 440). -/
def itemsRegex (field : String) : RE := rseq
  [ rs field
  , RE.star (RE.cls isWhite)
  , RE.star (RE.cls notNl), RE.lit '\n'
  , RE.group 1 (RE.plus (rseq
      [ RE.star (RE.cls isWhite), RE.plus (RE.cls isDigitC), RE.lit '.'
      , RE.star (RE.cls isWhite), RE.plus (RE.cls notNl)
      , RE.opt (RE.lit '\n') ])) ]

/-- `\s*\d+\.\s*([^\n]+)` (mod.rs 444). -/
def itemRegex : RE := rseq
  [ RE.star (RE.cls isWhite), RE.plus (RE.cls isDigitC), RE.lit '.'
  , RE.star (RE.cls isWhite), RE.group 1 (RE.plus (RE.cls notNl)) ]

/-- Rust `str::split(',')` on the character-list representation. -/
def splitComma : List Char → List (List Char)
  | [] => [[]]
  | c :: rest =>
    if c = ',' then [] :: splitComma rest
    else
      match splitComma rest with
      | [] => [[c]]
      | p :: ps => (c :: p) :: ps

/-- `InvestmentChatAgent::extract_array_field` (mod.rs 431–461):
comma-split when a comma is present; otherwise a numbered-list block after
the label; otherwise the single raw value. -/
def extractArrayField (message field : String) : Option (List String) :=
  match extractField message field with
  | none => none
  | some fieldValue =>
    if containsStr fieldValue "," then
      some ((splitComma fieldValue.data).map (fun p => String.mk (trimChars p)))
    else
      let numbered : Option (List String) :=
        match reCaptures (itemsRegex field) message with
        | some caps =>
          match capGet caps 1 with
          | some block =>
            let items := (reCapturesIter itemRegex (String.mk block)).filterMap
              (fun caps' => (capGet caps' 1).map (fun v => String.mk (trimChars v)))
            if items.isEmpty then none else some items
          | none => none
        | none => none
      match numbered with
      | some items => some items
      | none => some [fieldValue]

/-- `"?([^"]+)"?\s*:\s*"?([^,"]+)"?` (mod.rs 473). -/
def pairsRegex : RE := rseq
  [ RE.opt (RE.lit '"')
  , RE.group 1 (RE.plus (RE.cls notQuote))
  , RE.opt (RE.lit '"')
  , RE.star (RE.cls isWhite), RE.lit ':', RE.star (RE.cls isWhite)
  , RE.opt (RE.lit '"')
  , RE.group 2 (RE.plus (RE.cls notCommaQuote))
  , RE.opt (RE.lit '"') ]

/-- Insert into the association-list model of the `HashMap` of
`extract_json_field`, overwriting an existing key. -/
def insertPair (m : List (String × String)) (k v : String) :
    List (String × String) :=
  match m with
  | [] => [(k, v)]
  | (k', v') :: rest =>
    if k' = k then (k, v) :: rest else (k', v') :: insertPair rest k v

/-- `serde_json::to_string` of the pair map, modelled with the pairs in
first-insertion order (the Rust `HashMap` iteration order is unspecified). -/
def serializePairs (m : List (String × String)) : String :=
  "\x7b" ++ String.intercalate ","
    (m.map (fun kv => "\"" ++ kv.1 ++ "\":\"" ++ kv.2 ++ "\"")) ++ "\x7d"

/-- `InvestmentChatAgent::extract_json_field` (mod.rs 464–490): braced text
verbatim; otherwise loose `key: value` pairs serialized; otherwise the raw
value wrapped as a one-field object. -/
def extractJsonField (message field : String) : Option String :=
  match extractField message field with
  | none => none
  | some fieldValue =>
    if fieldValue.data.head? = some '{' && fieldValue.data.getLast? = some '}' then
      some fieldValue
    else
      let pairs := (reCapturesIter pairsRegex fieldValue).filterMap
        (fun caps =>
          match capGet caps 1, capGet caps 2 with
          | some k, some v =>
            some (String.mk (trimChars k), String.mk (trimChars v))
          | _, _ => none)
      let jsonObj := pairs.foldl (fun m kv => insertPair m kv.1 kv.2) []
      if !jsonObj.isEmpty then some (serializePairs jsonObj)
      else some ("\x7b\"value\": \"" ++ fieldValue ++ "\"\x7d")

/-! ## Crypto-name extraction and intent classification
(`handle_price_query`, mod.rs 638–716, and `process_message`, mod.rs 62–86) -/

/-- The regex cascade of mod.rs 640–667: `price_regex` first; on a match the
(optional) group 1 decides and later patterns are skipped; otherwise
`common_crypto_regex`, then `entry_points_regex` (groups 1, 2, 3 in order),
then the fully anchored `direct_regex`.  The empty string means "no crypto
found". -/
def extractedCrypto (m : String) : String :=
  match reCaptures priceRegex m with
  | some caps => ((capGet caps 1).map (fun v => lowerStr (String.mk v))).getD ""
  | none =>
    match reCaptures commonCryptoRegex m with
    | some caps => ((capGet caps 1).map (fun v => lowerStr (String.mk v))).getD ""
    | none =>
      match reCaptures entryPointsRegex m with
      | some caps =>
        match capGet caps 1 with
        | some v => lowerStr (String.mk v)
        | none =>
          match capGet caps 2 with
          | some v => lowerStr (String.mk v)
          | none => ((capGet caps 3).map (fun v => lowerStr (String.mk v))).getD ""
      | none =>
        match reCapturesAnchored directRegex m with
        | some caps => ((capGet caps 1).map (fun v => lowerStr (String.mk v))).getD ""
        | none => ""

/-- `InvestmentChatAgent::map_crypto_name_to_id` (mod.rs 862–880). -/
def mapCryptoNameToId (name : String) : String :=
  let n := lowerStr name
  if n = "btc" || n = "bitcoin" then "bitcoin"
  else if n = "eth" || n = "ethereum" then "ethereum"
  else if n = "sol" || n = "solana" then "solana"
  else if n = "ada" || n = "cardano" then "cardano"
  else if n = "dot" || n = "polkadot" then "polkadot"
  else if n = "doge" || n = "dogecoin" then "dogecoin"
  else if n = "xrp" || n = "ripple" then "ripple"
  else if n = "ltc" || n = "litecoin" then "litecoin"
  else if n = "link" || n = "chainlink" then "chainlink"
  else if n = "uni" || n = "uniswap" then "uniswap"
  else if n = "aave" then "aave"
  else if n = "matic" || n = "polygon" then "matic-network"
  else if n = "avax" || n = "avalanche" then "avalanche-2"
  else if n = "aero" || n = "aerodrome" then "aerodrome-finance"
  else name

/-- The request types the Intent Router distinguishes, in the priority
order of `handle_price_query` / `process_message`. -/
inductive Intent where
  /-- Dated historical query: extracted coin (lowercased) and date string. -/
  | historicalPrice (coin : String) (dateStr : String)
  /-- Undated historical query. -/
  | generalHistorical (coin : String)
  /-- Current-price / entry-points query. -/
  | priceQuery (coin : String) (wantsEntryPoints : Bool)
  /-- Strategy-creation request. -/
  | strategyCreation
  /-- Everything else: the LLM path. -/
  | generalChat
deriving DecidableEq, Repr

/-- mod.rs 513–514: `historical_regex` with both groups present. -/
def historicalIntent (m : String) : Option Intent :=
  match reCaptures historicalRegex m with
  | some caps =>
    match capGet caps 1, capGet caps 2 with
    | some c, some d =>
      some (.historicalPrice (lowerStr (String.mk c)) (String.mk d))
    | _, _ => none
  | none => none

/-- mod.rs 592–594: `historical_general_regex` with group 1 present. -/
def generalHistoricalIntent (m : String) : Option Intent :=
  match reCaptures historicalGeneralRegex m with
  | some caps =>
    match capGet caps 1 with
    | some c => some (.generalHistorical (lowerStr (String.mk c)))
    | none => none
  | none => none

/-- mod.rs 670: a non-empty extracted crypto name makes the message a
current-price query; the entry-points flag is the
`is_entry_points_query` check of mod.rs 707–716. -/
def priceIntent (m : String) : Option Intent :=
  let crypto := extractedCrypto m
  if crypto.isEmpty then none
  else some (.priceQuery crypto (isEntryPointsQuery m))

/-- The Intent Router: the classification order of `process_message` /
`handle_price_query` — dated historical, undated historical, price query,
strategy creation, general chat; the first matcher wins. -/
def classifyMessage (m : String) : Intent :=
  match historicalIntent m with
  | some i => i
  | none =>
    match generalHistoricalIntent m with
    | some i => i
    | none =>
      match priceIntent m with
      | some i => i
      | none => if isStrategyRequest m then .strategyCreation else .generalChat

/-! ## Strategy creation (`handle_strategy_creation`, mod.rs 340–415) -/

/-- The schema-help text returned when a required field is missing
(mod.rs 375). -/
def schemaHelpText : String :=
  "To add a strategy, please provide at least the following information:\n\nName: [strategy name]\nCategory: [category]\nDescription: [description]\nRisk Level: [low/medium/high]\n\nOptional fields:\nTags: [comma-separated tags]\nSteps: [numbered steps]\nRequirements: [numbered requirements]\nExpected Returns: [JSON object with timeframes]\nAuthor: [author name]\nVersion: [version number]"

/-- The record handed to `db::create_strategy` (mod.rs 397–411). -/
structure StrategyRecordM where
  strategyId : String
  name : String
  category : String
  description : String
  riskLevel : String
  tags : List String
  steps : List String
  requirements : List String
  expectedReturns : Option String
  author : String
  version : String
deriving DecidableEq, Repr

/-- `str::replace(" ", "_")`. -/
def replaceSpaces (s : String) : String :=
  String.mk (s.data.map (fun c => if c = ' ' then '_' else c))

/-- `InvestmentChatAgent::handle_strategy_creation` (mod.rs 340–415).
`username` and `ts` stand for `self.username` and `Utc::now().timestamp()`;
`dbOk` is the outcome of the `db::create_strategy` call.  The second
component is the record passed to `db::create_strategy` (`none` = the
persistence call is never made). -/
def handleStrategyCreation (username : String) (ts : Nat) (dbOk : Bool)
    (m : String) : Except ICError (Option String) × Option StrategyRecordM :=
  if !isStrategyRequest m then (.ok none, none)
  else
    let name := extractField m "name:"
    let category := extractField m "category:"
    let description := extractField m "description:"
    let riskLevel := extractField m "risk level:"
    let author := (extractField m "author:").getD "User"
    let version := (extractField m "version:").getD "1.0"
    let tags := extractArrayField m "tags:"
    let steps := extractArrayField m "steps:"
    let requirements := extractArrayField m "requirements:"
    let expectedReturns := extractJsonField m "expected returns:"
    if name.isNone || category.isNone || description.isNone || riskLevel.isNone then
      (.ok (some schemaHelpText), none)
    else
      let nm := name.getD ""
      let record : StrategyRecordM :=
        { strategyId := replaceSpaces (lowerStr nm) ++ "_" ++ lowerStr username
            ++ "_" ++ toString ts
          name := nm
          category := category.getD ""
          description := description.getD ""
          riskLevel := riskLevel.getD ""
          tags := tags.getD ["investment"]
          steps := steps.getD []
          requirements := requirements.getD []
          expectedReturns := expectedReturns
          author := author
          version := version }
      if dbOk then
        (.ok (some ("Strategy '" ++ nm ++
          "' has been successfully added to your investment strategies. You can refer to it in future conversations.")),
         some record)
      else (.error (.database "create_strategy"), some record)

/-- Numeric value of a digit string (most significant first); used to state
the "year = 2000 + value" part of the spec's disambiguation rule. -/
def digitsVal (l : List Char) : Nat :=
  l.foldl (fun a c => a * 10 + (c.toNat - '0'.toNat)) 0

/-! ## Lemmas about `splitSep` and `pad2` -/

lemma splitSep_ne_nil (s : List Char) : splitSep s ≠ [] := by
  induction s with
  | nil => simp [splitSep]
  | cons c rest ih =>
    unfold splitSep
    by_cases h : isSep c
    · simp [h]
    · simp only [h]
      cases hr : splitSep rest with
      | nil => simp
      | cons p ps => simp

lemma splitSep_pieces_no_sep (s : List Char) :
    ∀ p ∈ splitSep s, ∀ c ∈ p, isSep c = false := by
  induction s with
  | nil => intro p hp c hc; simp [splitSep] at hp; subst hp; simp at hc
  | cons a rest ih =>
    intro p hp c hc
    unfold splitSep at hp
    by_cases h : isSep a
    · rw [if_pos h] at hp
      rcases List.mem_cons.mp hp with rfl | hp'
      · simp at hc
      · exact ih p hp' c hc
    · rw [if_neg h] at hp
      cases hr : splitSep rest with
      | nil => exact absurd hr (splitSep_ne_nil rest)
      | cons q qs =>
        rw [hr] at hp
        rcases List.mem_cons.mp hp with rfl | hp'
        · rcases List.mem_cons.mp hc with rfl | hc'
          · simpa using h
          · exact ih q (hr ▸ List.mem_cons_self q qs) c hc'
        · exact ih p (hr ▸ List.mem_cons_of_mem q hp') c hc

lemma splitSep_sepfree (z : List Char) (hz : ∀ c ∈ z, isSep c = false) :
    splitSep z = [z] := by
  induction z with
  | nil => simp [splitSep]
  | cons a rest ih =>
    have ha : isSep a = false := hz a (List.mem_cons_self a rest)
    have hrest : ∀ c ∈ rest, isSep c = false :=
      fun c hc => hz c (List.mem_cons_of_mem a hc)
    unfold splitSep
    simp only [ha, Bool.false_eq_true, if_false, ih hrest]

lemma splitSep_two (y z : List Char)
    (hy : ∀ c ∈ y, isSep c = false) (hz : ∀ c ∈ z, isSep c = false) :
    splitSep (y ++ '-' :: z) = [y, z] := by
  induction y with
  | nil =>
    simp only [List.nil_append]
    unfold splitSep
    simp [isSep, splitSep_sepfree z hz]
  | cons a rest ih =>
    have ha : isSep a = false := hy a (List.mem_cons_self a rest)
    have hrest : ∀ c ∈ rest, isSep c = false :=
      fun c hc => hy c (List.mem_cons_of_mem a hc)
    simp only [List.cons_append]
    unfold splitSep
    simp only [ha, Bool.false_eq_true, if_false, ih hrest]

lemma splitSep_three (x y z : List Char)
    (hx : ∀ c ∈ x, isSep c = false) (hy : ∀ c ∈ y, isSep c = false)
    (hz : ∀ c ∈ z, isSep c = false) :
    splitSep (x ++ '-' :: (y ++ '-' :: z)) = [x, y, z] := by
  induction x with
  | nil =>
    simp only [List.nil_append]
    unfold splitSep
    simp [isSep, splitSep_two y z hy hz]
  | cons a rest ih =>
    have ha : isSep a = false := hx a (List.mem_cons_self a rest)
    have hrest : ∀ c ∈ rest, isSep c = false :=
      fun c hc => hx c (List.mem_cons_of_mem a hc)
    simp only [List.cons_append]
    unfold splitSep
    simp only [ha, Bool.false_eq_true, if_false, ih hrest]

lemma pad2_no_sep (x : List Char) (hx : ∀ c ∈ x, isSep c = false) :
    ∀ c ∈ pad2 x, isSep c = false := by
  intro c hc
  unfold pad2 at hc
  split at hc
  · rcases List.mem_cons.mp hc with rfl | hc'
    · simp [isSep]
    · exact hx c hc'
  · exact hx c hc

lemma pad2_idem (x : List Char) : pad2 (pad2 x) = pad2 x := by
  unfold pad2
  split
  · next h => rw [if_neg (by simp [h])]
  · rfl

lemma splitSep_mkDate (d m y : List Char)
    (hd : ∀ c ∈ d, isSep c = false) (hm : ∀ c ∈ m, isSep c = false)
    (hy : ∀ c ∈ y, isSep c = false) :
    splitSep (mkDate d m y) = [pad2 d, pad2 m, y] := by
  unfold mkDate
  exact splitSep_three (pad2 d) (pad2 m) y (pad2_no_sep d hd) (pad2_no_sep m hm) hy

/-! ## Claim C7 -/

/-- C7 — confirmed.  For every three-field date string (split on the
separator class dash/slash/dot), the live normalizer applies exactly the
spec's disambiguation: a 4-character first field is treated as year-first
(ISO), otherwise a 4-character last field as dd-mm-yyyy; a 2-character last
field gets year `"20" ++ field`, whose numeric value is 2000 plus the
field's value; and one-character day/month fields are zero-padded in the
canonical `dd-mm-yyyy` output. -/
theorem c7_numeric_disambiguation :
    ∀ (s f1 f2 f3 : List Char), splitSep s = [f1, f2, f3] →
    (f1.length = 4 → formatDateForApiL s = .ok (mkDate f3 f2 f1)) ∧
    (f1.length ≠ 4 → f3.length = 4 → formatDateForApiL s = .ok (mkDate f1 f2 f3)) ∧
    (f1.length ≠ 4 → f3.length = 2 →
      formatDateForApiL s = .ok (mkDate f1 f2 ('2' :: '0' :: f3)) ∧
      digitsVal ('2' :: '0' :: f3) = 2000 + digitsVal f3) ∧
    (∀ x : List Char, x.length = 1 → pad2 x = '0' :: x) := by
  intro s f1 f2 f3 hsplit
  refine ⟨?_, ?_, ?_, ?_⟩
  · intro h1
    unfold formatDateForApiL
    rw [hsplit]
    simp [h1]
  · intro h1 h3
    unfold formatDateForApiL
    rw [hsplit]
    simp [h1, h3]
  · intro h1 h3
    have h3' : f3.length ≠ 4 := by omega
    constructor
    · unfold formatDateForApiL
      rw [hsplit]
      simp [h1, h3, h3']
    · match f3, h3 with
      | [c1, c2], _ =>
        simp [digitsVal, List.foldl]
        ring
  · intro x hx
    simp [pad2, hx]

/-- Witness for C7 at the concrete input "5/6/24". -/
theorem c7_numeric_disambiguation_witness :
    formatDateForApiL ("5/6/24".data) =
      .ok (mkDate ['5'] ['6'] ('2' :: '0' :: ['2', '4'])) ∧
    digitsVal ('2' :: '0' :: ['2', '4']) = 2000 + digitsVal ['2', '4'] :=
  (c7_numeric_disambiguation ("5/6/24".data) ['5'] ['6'] ['2', '4']
    (by decide)).2.2.1 (by decide) (by decide)

/-! ## Claim C8 -/

/-- C8 — counterexample.  Normalization succeeds on "1111-22-3333" with
output "3333-22-1111", but normalizing that output gives "1111-22-3333"
back, not the same string: the normalizer is not idempotent on its own
output (the output's 4-character day field is re-read as an ISO year). -/
theorem c8_idempotence_counterexample :
    formatDateForApi "1111-22-3333" = .ok "3333-22-1111" ∧
    formatDateForApi "3333-22-1111" = .ok "1111-22-3333" ∧
    "3333-22-1111" ≠ "1111-22-3333" := by decide

/-- C8 — amended.  The normalizer is idempotent on every canonical output
whose day field does not have exactly four characters: if normalization
succeeds with output `c` and the first separator-split field of `c` is not
4 characters long, then normalizing `c` succeeds and returns `c`
unchanged. -/
theorem c8_idempotent_on_short_day_outputs :
    ∀ (s c : List Char), formatDateForApiL s = .ok c →
    ((splitSep c).headD []).length ≠ 4 →
    formatDateForApiL c = .ok c := by
  intro s c hok hday
  unfold formatDateForApiL at hok
  split at hok
  case h_2 => exact absurd hok (by simp)
  case h_1 a b cc heq =>
    have ha : ∀ ch ∈ a, isSep ch = false := fun ch hch =>
      splitSep_pieces_no_sep s a (heq ▸ List.mem_cons_self a [b, cc]) ch hch
    have hb : ∀ ch ∈ b, isSep ch = false := fun ch hch =>
      splitSep_pieces_no_sep s b
        (heq ▸ List.mem_cons_of_mem a (List.mem_cons_self b [cc])) ch hch
    have hcc : ∀ ch ∈ cc, isSep ch = false := fun ch hch =>
      splitSep_pieces_no_sep s cc
        (heq ▸ List.mem_cons_of_mem a (List.mem_cons_of_mem b
          (List.mem_cons_self cc []))) ch hch
    have h20cc : ∀ ch ∈ ('2' :: '0' :: cc), isSep ch = false := by
      intro ch hch
      rcases List.mem_cons.mp hch with rfl | hch'
      · simp [isSep]
      · rcases List.mem_cons.mp hch' with rfl | hch''
        · simp [isSep]
        · exact hcc ch hch''
    split_ifs at hok with h1 h2 h3
    · -- ISO branch: c = mkDate cc b a with a.length = 4
      have hc : c = mkDate cc b a := by
        injection hok with h'; exact h'.symm
      subst hc
      rw [splitSep_mkDate cc b a hcc hb ha] at hday
      simp only [List.headD_cons] at hday
      unfold formatDateForApiL
      rw [splitSep_mkDate cc b a hcc hb ha]
      simp [hday, h1, mkDate, pad2_idem]
    · -- dd-mm-yyyy branch: c = mkDate a b cc with cc.length = 4
      have hc : c = mkDate a b cc := by
        injection hok with h'; exact h'.symm
      subst hc
      rw [splitSep_mkDate a b cc ha hb hcc] at hday
      simp only [List.headD_cons] at hday
      unfold formatDateForApiL
      rw [splitSep_mkDate a b cc ha hb hcc]
      simp [hday, h2, mkDate, pad2_idem]
    · -- two-digit-year branch: c = mkDate a b ('2' :: '0' :: cc), year length 4
      have hc : c = mkDate a b ('2' :: '0' :: cc) := by
        injection hok with h'; exact h'.symm
      subst hc
      have hy4 : ('2' :: '0' :: cc).length = 4 := by simp [h3]
      rw [splitSep_mkDate a b _ ha hb h20cc] at hday
      simp only [List.headD_cons] at hday
      unfold formatDateForApiL
      rw [splitSep_mkDate a b _ ha hb h20cc]
      simp [hday, hy4, mkDate, pad2_idem]

/-- Witness for the amended C8 at the concrete input "1-2-2024". -/
theorem c8_idempotent_on_short_day_outputs_witness :
    formatDateForApiL ("1-2-2024".data) = .ok ("01-02-2024".data) ∧
    formatDateForApiL ("01-02-2024".data) = .ok ("01-02-2024".data) :=
  ⟨by decide,
   c8_idempotent_on_short_day_outputs ("1-2-2024".data) ("01-02-2024".data)
     (by decide) (by decide)⟩

/-! ## Claim C1 -/

/-- C1 — counterexample.  A first call that fails after 10 ms (e.g. an
immediate transport error) never writes `LAST_REQUEST`, so the next call
finds the cell still `None` and starts immediately: the two call-start
instants are 0 and 10, which differ by less than the 1500 ms minimum
interval — and this already happens with a single sequential caller. -/
theorem c1_spacing_counterexample :
    runCalls initRL [⟨0, 10, false⟩, ⟨0, 5, true⟩] = [0, 10] ∧
    10 - 0 < minRequestIntervalMs := by decide

/-- C1 — amended.  Each call first waits out the remainder of the minimum
interval measured from the shared last-request timestamp, which is recorded
only when a response is successfully received and parsed.  Consequently (in
the sequential trace model) a call waits until at least 1500 ms past the
recorded timestamp, and any call that follows a successfully-parsed call
starts at least 1500 ms after that call's start; a call following a failed
call is not spaced from it. -/
theorem c1_spacing_after_parsed_calls :
    (∀ (st : RLState) (c : CallSpec) (t : Nat),
      st.last = some t → t + minRequestIntervalMs ≤ (stepCall st c).1) ∧
    (∀ (cs : List CallSpec) (st : RLState) (i : Nat),
      i + 1 < cs.length → (cs.getD i ⟨0, 0, false⟩).parsedOk = true →
      (runCalls st cs).getD i 0 + minRequestIntervalMs ≤
        (runCalls st cs).getD (i + 1) 0) := by
  constructor
  · intro st c t hlast
    unfold stepCall
    rw [hlast]
    simp
  · intro cs
    induction cs with
    | nil => intro st i h; simp at h
    | cons c cs' ih =>
      intro st i h hok
      cases i with
      | zero =>
        cases cs' with
        | nil => simp at h
        | cons c' cs'' =>
          simp only [List.getD_cons_zero] at hok
          show (stepCall st c).1 + minRequestIntervalMs ≤
            (runCalls (stepCall st c).2 (c' :: cs'')).getD 0 0
          unfold runCalls
          simp only [List.getD_cons_zero]
          unfold stepCall
          rw [hok]
          simp
      | succ j =>
        simp only [List.getD_cons_succ, List.length_cons] at h hok ⊢
        show (runCalls (stepCall st c).2 cs').getD j 0 + minRequestIntervalMs ≤
          (runCalls (stepCall st c).2 cs').getD (j + 1) 0
        exact ih (stepCall st c).2 j (by omega) hok

/-- Witness for the amended C1: two back-to-back successfully-parsed calls
start 1510 ms apart. -/
theorem c1_spacing_after_parsed_calls_witness :
    (runCalls initRL [⟨0, 10, true⟩, ⟨0, 5, true⟩]).getD 0 0 +
      minRequestIntervalMs ≤
    (runCalls initRL [⟨0, 10, true⟩, ⟨0, 5, true⟩]).getD 1 0 :=
  c1_spacing_after_parsed_calls.2 [⟨0, 10, true⟩, ⟨0, 5, true⟩] initRL 0
    (by decide) (by decide)

/-! ## Claim C2 -/

/-- C2 — the live date normalizer performs no calendar validation: the
nonexistent dates 31-02-2024 (February 31st) and 99-12-2024 (day 99) are
both accepted and passed through unchanged instead of failing with
`InvalidInput`.  (The validating variant in
`src/investment_chat/date_utils.rs` is dead code: no `mod date_utils;`
declaration exists, so the historical-price path at mod.rs 519 uses the
method embedded here.) -/
theorem c2_nonexistent_dates_accepted :
    formatDateForApi "31-02-2024" = .ok "31-02-2024" ∧
    formatDateForApi "99-12-2024" = .ok "99-12-2024" ∧
    formatDateForApi "31-2-24" = .ok "31-02-2024" := by decide

/-! ## Claim C4 -/

/-- C4 — confirmed.  The Intent Router classifies
"What is the price of bitcoin?" as a current-price query for coin
"bitcoin" with the entry-points flag false, and "entry points for solana"
as a current-price query for coin "solana" with the entry-points flag
true. -/
theorem c4_intent_examples :
    classifyMessage "What is the price of bitcoin?" =
      .priceQuery "bitcoin" false ∧
    classifyMessage "entry points for solana" = .priceQuery "solana" true := by
  decide

/-! ## Claim C5 -/

/-- C5 — counterexample.  "save to database" contains none of the claim's
triggers (no "strategy", no "please save this") yet takes the
strategy-creation path: the source also fires on `save` together with
`database`. -/
theorem c5_strategy_trigger_counterexample :
    isStrategyRequest "save to database" = true ∧
    ¬ claimStrategyCondition "save to database" := by decide

/-- The claim's condition amended with the extra disjunct the source
checks: `save` together with `database`. -/
def amendedStrategyCondition (m : String) : Prop :=
  claimStrategyCondition m ∨
  (containsStr (lowerStr m) "save" = true ∧
   containsStr (lowerStr m) "database" = true)

/-- C5 — amended.  A message takes the strategy-creation path exactly when
its lowercased text contains an action verb from {save, add, create, store}
together with "strategy", or the phrase "please save this", or — the
disjunct the claim omits — "save" together with "database". -/
theorem c5_strategy_trigger_iff :
    ∀ m : String, isStrategyRequest m = true ↔ amendedStrategyCondition m := by
  intro m
  unfold isStrategyRequest amendedStrategyCondition claimStrategyCondition
  simp only [Bool.or_eq_true, Bool.and_eq_true]
  tauto

/-- Witness for the amended C5 at the concrete message "save strategy". -/
theorem c5_strategy_trigger_iff_witness :
    amendedStrategyCondition "save strategy" :=
  (c5_strategy_trigger_iff "save strategy").mp (by decide)

/-! ## Claim C3 -/

/-- C3 — counterexample.  A current-price failure with `PriceNotFound`
(the unrecognized-coin case) answers directly with zero search-source
calls, refuting "never zero"; and when the dated historical fallback also
fails, the turn aborts with a `PriceApi` error instead of returning an
apology. -/
theorem c3_fallback_counterexample :
    (handleCurrentPriceError "foocoin" (.priceNotFound "foocoin") none).exaQueries = [] ∧
    (handleHistoricalPriceError "foocoin" "01-01-2024" "boom" none).outcome =
      .abort (.priceApi "Error fetching historical price for foocoin: boom. Make sure the date format is correct (DD-MM-YYYY) and that the cryptocurrency is supported.") := by
  decide

/-- C3 — amended.  On a current-price failure, exactly one search-source
call is issued when the error is a network/transport error and none
otherwise (rate-limit, not-found and invalid-response errors answer
directly); when the network-error fallback also fails, the response is the
apology naming the coin.  On a dated historical failure, exactly one
search-source call is issued for every error kind, and when it fails the
turn aborts with a `PriceApi` error. -/
theorem c3_fallback_policy :
    ∀ (crypto dateStr e : String) (pe : PriceErrorM) (exa : Option String),
    ((handleCurrentPriceError crypto pe exa).exaQueries.length =
      match pe with
      | .networkError => 1
      | _ => 0) ∧
    (pe = .networkError → exa = none →
      (handleCurrentPriceError crypto pe exa).outcome =
        .answer ("I couldn't find real-time price information for " ++ crypto ++
          ". Please check that the cryptocurrency name or ticker is correct and try again.")) ∧
    ((handleHistoricalPriceError crypto dateStr e exa).exaQueries.length = 1) ∧
    (exa = none →
      (handleHistoricalPriceError crypto dateStr e exa).outcome =
        .abort (.priceApi ("Error fetching historical price for " ++ crypto ++
          ": " ++ e ++
          ". Make sure the date format is correct (DD-MM-YYYY) and that the cryptocurrency is supported."))) := by
  intro crypto dateStr e pe exa
  refine ⟨?_, ?_, ?_, ?_⟩
  · cases pe <;> cases exa <;> rfl
  · rintro rfl rfl; rfl
  · cases exa <;> rfl
  · rintro rfl; rfl

/-- Witness for the amended C3: a network-error current-price failure with
a failed search yields the apology naming the coin. -/
theorem c3_fallback_policy_witness :
    (handleCurrentPriceError "foo" PriceErrorM.networkError none).outcome =
      .answer ("I couldn't find real-time price information for " ++ "foo" ++
        ". Please check that the cryptocurrency name or ticker is correct and try again.") :=
  (c3_fallback_policy "foo" "d" "e" PriceErrorM.networkError none).2.1 rfl rfl

/-! ## Claim C6 -/

/-- C6 — confirmed.  For every strategy-creation request missing at least
one of the required fields (name, category, description, risk level), the
handler returns the schema-help text and never calls `db::create_strategy`
(the record component is `none`), for any username, timestamp and database
behavior. -/
theorem c6_missing_fields_block_creation :
    ∀ (username : String) (ts : Nat) (dbOk : Bool) (m : String),
    isStrategyRequest m = true →
    (extractField m "name:" = none ∨ extractField m "category:" = none ∨
     extractField m "description:" = none ∨ extractField m "risk level:" = none) →
    handleStrategyCreation username ts dbOk m = (.ok (some schemaHelpText), none) := by
  intro username ts dbOk m hreq hmiss
  unfold handleStrategyCreation
  rw [hreq]
  have hcond : ((extractField m "name:").isNone || (extractField m "category:").isNone
      || (extractField m "description:").isNone
      || (extractField m "risk level:").isNone) = true := by
    rcases hmiss with h | h | h | h <;> simp [h]
  simp only [Bool.not_true, Bool.false_eq_true, if_false, hcond, if_true]

/-- Witness for C6: "Save strategy\nName: X" is a strategy request whose
category field is absent; the response is the schema help and no record is
created. -/
theorem c6_missing_fields_block_creation_witness :
    isStrategyRequest "Save strategy\nName: X" = true ∧
    extractField "Save strategy\nName: X" "category:" = none ∧
    handleStrategyCreation "alice" 0 true "Save strategy\nName: X" =
      (.ok (some schemaHelpText), none) :=
  ⟨by decide, by decide,
   c6_missing_fields_block_creation "alice" 0 true "Save strategy\nName: X"
     (by decide) (.inr (.inl (by decide)))⟩

/-! ## Claim C9 -/

/-- C9 — confirmed.  In every execution of `process_message`: when the turn
returns `Ok r`, the persisted events are exactly the user message followed
by the assistant response `r` (user first, response persisted before
return); when the turn returns `Err`, no assistant message is persisted —
the event list is empty (the opening user save failed) or just the user
message. -/
theorem c9_persistence_discipline :
    ∀ (o : PMOracle) (m : String),
    (∀ r, (processMessage o m).1 = .ok r →
      (processMessage o m).2 = [("user", m), ("assistant", r)]) ∧
    (∀ e, (processMessage o m).1 = .error e →
      (processMessage o m).2 = [] ∨ (processMessage o m).2 = [("user", m)]) := by
  intro o m
  obtain ⟨su, pr, sp, str, ss, kn, cfg, ai, sa⟩ := o
  unfold processMessage
  cases su
  · simp
  · cases pr with
    | error e => simp
    | ok po =>
      cases po with
      | some info => cases sp <;> simp
      | none =>
        cases str with
        | error e => simp
        | ok so =>
          cases so with
          | some resp => cases ss <;> simp
          | none =>
            by_cases hk : (extractKeywords m).isEmpty <;>
              cases kn <;> cases cfg <;> cases ai <;> cases sa <;>
                simp [hk, Except.map]

/-- Witness for C9: an all-successful price-query turn persists the user
message and then the assistant response. -/
theorem c9_persistence_discipline_witness :
    (processMessage
      ⟨true, .ok (some "42"), true, .ok none, true, .ok "", true, .ok "x", true⟩
      "hi").2 = [("user", "hi"), ("assistant", "42")] :=
  (c9_persistence_discipline
    ⟨true, .ok (some "42"), true, .ok none, true, .ok "", true, .ok "x", true⟩
    "hi").1 "42" (by decide)

/-! ## Claim C10 -/

/-- C10 — counterexample.  A well-formed 200 response whose payload lacks
the requested coin fails with `PriceNotFound` *and* still updates the
shared last-request timestamp (to the completion instant), because the
source writes `LAST_REQUEST` right after parsing, before the coin/currency
lookup. -/
theorem c10_timestamp_counterexample :
    fetchCoinPriceModel "bitcoin" (.response 200 (some [])) none 5 =
      (.error (.priceNotFound "bitcoin"), some 5) ∧
    (some 5 : Option Nat) ≠ none := by decide

/-- C10 — amended.  The shared last-request timestamp is left unchanged by
every error that occurs before parsing (transport failure, rate-limit
status, other non-success status, undeserializable payload) and is set to
the completion instant exactly when a response is successfully received
and parsed — including calls that then fail with `PriceNotFound` because
the coin or currency is missing from the parsed payload. -/
theorem c10_timestamp_update_policy :
    ∀ (coinId : String) (net : NetOutcome SimpleBody)
      (netH : NetOutcome HistoricalBody) (last : Option Nat) (t : Nat),
    (fetchCoinPriceModel coinId net last t).2 =
      (if parsedOutcome net then some t else last) ∧
    (fetchCoinHistoricalPriceModel coinId netH last t).2 =
      (if parsedOutcome netH then some t else last) := by
  intro coinId net netH last t
  constructor
  · cases net with
    | transportError => rfl
    | response status body =>
      unfold fetchCoinPriceModel parsedOutcome
      by_cases h429 : status = 429
      · simp [h429]
      · by_cases hsucc : isSuccessStatus status
        · cases body with
          | none => simp [h429, hsucc]
          | some coins =>
            simp only [h429, if_false, hsucc, Bool.not_true, Bool.false_eq_true,
              Option.isSome_some, if_true]
            cases hc : lookupA coins coinId with
            | none => simp [h429, hsucc, hc]
            | some prices =>
              cases hp : lookupA prices "usd" with
              | none => simp [h429, hsucc, hc, hp]
              | some p => simp [h429, hsucc, hc, hp]
        · cases body <;> simp [h429, hsucc]
  · cases netH with
    | transportError => rfl
    | response status body =>
      unfold fetchCoinHistoricalPriceModel parsedOutcome
      by_cases h429 : status = 429
      · simp [h429]
      · by_cases hsucc : isSuccessStatus status
        · cases body with
          | none => simp [h429, hsucc]
          | some currentPrice =>
            simp only [h429, if_false, hsucc, Bool.not_true, Bool.false_eq_true,
              Option.isSome_some, if_true]
            cases hp : lookupA currentPrice "usd" with
            | none => simp [h429, hsucc, hp]
            | some p => simp [h429, hsucc, hp]
        · cases body <;> simp [h429, hsucc]

end DefiConsultant
